import Mathlib

/-!
Verification of the `pkg/packaging` component of the bumblebee repository
(file `pkg/packaging/spec.go`).

The component packages a compiled eBPF program (an opaque byte blob) plus a
small JSON config into an OCI artifact and pushes/pulls it through an OCI
registry.  The Go code delegates content addressing, manifest generation and
network transfer to the oras-go / go-digest / image-spec libraries; those
library operations are modelled here at the level of behaviour the component
observes:

* a Go byte slice (and a Go string, byte-for-byte a valid Unicode sequence
  here) is modelled as `List Char`, each character one Unicode scalar value;
* `digest.FromBytes`, a cryptographic content hash, is modelled abstractly as
  a function of the content (the component relies only on it being one);
* the oras in-memory content store is an explicit list of descriptor/content
  pairs plus a manifest table;
* `oras.Copy` transfers the manifest stored under the requested reference
  together with the staged blobs it references (in `Push` the staging store
  holds exactly those blobs);
* `encoding/json` marshalling of `EbpfConfig` is modelled with Go's actual
  string-escaping rules (including the HTML escapes for the characters
  `<`, `>`, `&` and the U+2028/U+2029 escapes); unmarshalling is modelled by
  a decoder for the object form the component itself produces, rejecting
  everything else with a decode error.

Go's `nil` pointer is modelled with `Option`; a nil-pointer dereference and
any other panic is the distinguished outcome `GoResult.panic`.
-/

namespace Packaging

/-- A Go byte slice / string: one `Char` per byte or Unicode scalar value. -/
abbrev Bytes := List Char

/-- Outcome of a Go call: a value, an error carrying a message, or a panic
(used for nil-pointer dereference). -/
inductive GoResult (α : Type) where
  | ok : α → GoResult α
  | err : String → GoResult α
  | panic : GoResult α
deriving DecidableEq, Repr

/-- Constant `configMediaType` from spec.go line 15. -/
def configMediaType : String := "application/ebpf.oci.image.config.v1+json"

/-- Constant `eBPFMediaType` from spec.go line 16. -/
def eBPFMediaType : String := "binary/ebpf.solo.io.v1"

/-- Constant `ebpfFileName` from spec.go line 18. -/
def ebpfFileName : String := "program.o"

/-- Constant `configName` from spec.go line 19. -/
def configName : String := "config.json"

/-- The OCI title annotation key `ocispec.AnnotationTitle`. -/
def AnnotationTitle : String := "org.opencontainers.image.title"

/-- `EbpfConfig` from spec.go lines 29-31: one JSON-tagged field `info`. -/
structure EbpfConfig where
  Info : String
deriving DecidableEq, Repr

/-- `EbpfPackage` from spec.go lines 22-27: program bytes plus embedded
config. -/
structure EbpfPackage where
  ProgramFileBytes : Bytes
  EbpfConfig : EbpfConfig
deriving DecidableEq, Repr

/-- Lookup in a Go `map[string]string` (association list model). -/
def assocLookup {α : Type} : List (String × α) → String → Option α
  | [], _ => none
  | (k, v) :: rest, key => if k = key then some v else assocLookup rest key

/-- Assignment `m[k] = v` in a Go `map[string]string`. -/
def assocSet : List (String × String) → String → String → List (String × String)
  | [], k, v => [(k, v)]
  | (k0, v0) :: rest, k, v =>
      if k0 = k then (k, v) :: rest else (k0, v0) :: assocSet rest k v

/-- An OCI content descriptor (`ocispec.Descriptor`): media type, content
digest, size and annotations. -/
structure Descriptor where
  mediaType : String
  dig : Bytes
  size : Nat
  annotations : List (String × String)
deriving DecidableEq, Repr

/-- Model of `digest.FromBytes`: the content digest as an abstract function
of the content.  The component uses it only as such (content addressing);
no property of the hash beyond functionality is relied on, so the model
keeps the content itself as the digest value. -/
def digestFromBytes (byt : Bytes) : Bytes := byt

/-- An OCI manifest as `content.GenerateManifest` builds it: a config
descriptor plus the content-layer descriptors. -/
structure Manifest where
  config : Descriptor
  layers : List Descriptor
deriving DecidableEq, Repr

/-- Model of `content.GenerateManifest(&configDesc, nil, layers...)`: binds
the config descriptor and the layer descriptors; its error result is always
nil for the inputs the component passes. -/
def generateManifest (config : Descriptor) (layers : List Descriptor) : Manifest :=
  { config := config, layers := layers }

/-- The oras in-memory content store (`content.Memory`): staged blobs with
their descriptors, and manifests keyed by reference. -/
structure Memory where
  entries : List (Descriptor × Bytes)
  manifests : List (String × Manifest)
deriving DecidableEq, Repr

/-- `content.NewMemory()`: a fresh, empty store. -/
def Memory.new : Memory := { entries := [], manifests := [] }

/-- `Memory.Add(name, mediaType, content)`: computes the descriptor for the
content (digest, size, title annotation when the name is non-empty), stages
the blob and returns the descriptor.  Its error result is always nil for
byte-slice content. -/
def Memory.add (m : Memory) (name mediaType : String) (content : Bytes) :
    Descriptor × Memory :=
  let desc : Descriptor :=
    { mediaType := mediaType
      dig := digestFromBytes content
      size := content.length
      annotations := if name = "" then [] else [(AnnotationTitle, name)] }
  (desc, { m with entries := m.entries ++ [(desc, content)] })

/-- `Memory.Set(desc, content)`: stages a blob under a caller-built
descriptor. -/
def Memory.set (m : Memory) (desc : Descriptor) (content : Bytes) : Memory :=
  { m with entries := m.entries ++ [(desc, content)] }

/-- `Memory.StoreManifest(ref, desc, manifest)`: records the manifest under
the reference. -/
def Memory.storeManifest (m : Memory) (ref : String) (manifest : Manifest) : Memory :=
  { m with manifests := m.manifests ++ [(ref, manifest)] }

/-- The search behind `Memory.GetByName`: first staged blob whose
descriptor carries the given title annotation. -/
def findByName : List (Descriptor × Bytes) → String → Option (Descriptor × Bytes)
  | [], _ => none
  | e :: rest, name =>
      if assocLookup e.1.annotations AnnotationTitle = some name then some e
      else findByName rest name

/-- `Memory.GetByName(name)`: looks a staged blob up by its title
annotation; `none` models the `ok == false` return. -/
def Memory.getByName (m : Memory) (name : String) : Option (Descriptor × Bytes) :=
  findByName m.entries name

/-- An artifact stored in the remote registry under one reference: the
manifest and the blobs it references. -/
structure Artifact where
  manifest : Manifest
  blobs : List (Descriptor × Bytes)
deriving DecidableEq, Repr

/-- The remote registry (`content.Registry`) state: artifacts keyed by
reference, newest binding first. -/
structure Registry where
  store : List (String × Artifact)
deriving DecidableEq, Repr

/-- Overwriting the artifact stored under a reference (the effect of a
successful registry push: last write wins). -/
def Registry.set (r : Registry) (ref : String) (art : Artifact) : Registry :=
  ⟨(ref, art) :: r.store⟩

/-- `oras.Copy(ctx, memoryStore, ref, registry, "")` in the push direction:
resolves the manifest stored under `ref` in the source store and transfers
it with the staged blobs to the registry; fails when the reference is not
present in the source. -/
def copyMemoryToRegistry (mem : Memory) (ref : String) (reg : Registry) :
    GoResult Registry :=
  match assocLookup mem.manifests ref with
  | none => .err ("could not resolve reference: " ++ ref)
  | some m => .ok (reg.set ref { manifest := m, blobs := mem.entries })

/-- `oras.Copy(ctx, registry, ref, memoryStore, "")` in the pull direction:
fetches the manifest stored under `ref` and its blobs into the local store;
fails (network / not-found error) when the registry has nothing at `ref`. -/
def copyRegistryToMemory (reg : Registry) (ref : String) (mem : Memory) :
    GoResult Memory :=
  match assocLookup reg.store ref with
  | none => .err (ref ++ ": not found")
  | some art =>
      .ok { entries := mem.entries ++ art.blobs
            manifests := mem.manifests ++ [(ref, art.manifest)] }

/-- Lower-case hex digit for a value below 16 (Go's `"0123456789abcdef"`). -/
def hexDigitChar (n : Nat) : Char :=
  if n < 10 then Char.ofNat (48 + n) else Char.ofNat (87 + n)

/-- Value of a hex digit character, `none` on a non-digit (the decoder side
of `\uXXXX` escapes). -/
def hexVal (c : Char) : Option Nat :=
  if 48 ≤ c.toNat ∧ c.toNat ≤ 57 then some (c.toNat - 48)
  else if 97 ≤ c.toNat ∧ c.toNat ≤ 102 then some (c.toNat - 87)
  else if 65 ≤ c.toNat ∧ c.toNat ≤ 70 then some (c.toNat - 55)
  else none

/-- Go `encoding/json` string escaping of one character (`Marshal` path,
HTML escaping on, as the component uses it): quote and backslash get a
backslash escape, newline / carriage return / tab get their short escapes,
the remaining control characters and the HTML-sensitive characters get
`\u00XX`, U+2028 and U+2029 get `\u202X`, everything else is literal. -/
def escapeChar (c : Char) : List Char :=
  if c = '"' then ['\\', '"']
  else if c = '\\' then ['\\', '\\']
  else if c = '\n' then ['\\', 'n']
  else if c = '\r' then ['\\', 'r']
  else if c = '\t' then ['\\', 't']
  else if c.toNat < 32 ∨ c = '<' ∨ c = '>' ∨ c = '&' then
    ['\\', 'u', '0', '0', hexDigitChar (c.toNat / 16), hexDigitChar (c.toNat % 16)]
  else if c.toNat = 8232 ∨ c.toNat = 8233 then
    ['\\', 'u', '2', '0', '2', hexDigitChar (c.toNat % 16)]
  else [c]

/-- Escaping applied across a whole string body. -/
def escapeString (s : List Char) : List Char := (s.map escapeChar).flatten

/-- A JSON string literal for `s`: opening quote, escaped body, closing
quote. -/
def jsonQuote (s : String) : List Char := '"' :: (escapeString s.data ++ ['"'])

/-- `json.Marshal(pkg.EbpfConfig)`: the object with the single tagged field
`info` holding the quoted `Info` string.  Marshalling a struct of one string
field never fails in Go, so the model is total. -/
def jsonMarshal (cfg : EbpfConfig) : Bytes :=
  '{' :: '"' :: 'i' :: 'n' :: 'f' :: 'o' :: '"' :: ':' :: (jsonQuote cfg.Info ++ ['}'])

/-- Decoding of a JSON string body after the opening quote: returns the
decoded characters and the input remaining after the closing quote.  Follows
Go's decoder: backslash escapes `\" \\ \/ \n \r \t \b \f` and `\uXXXX`
(a lone surrogate decodes to U+FFFD), raw control characters are rejected,
and missing a closing quote is an error. -/
def parseStringBody : List Char → Option (List Char × List Char)
  | [] => none
  | c :: rest =>
    if c = '"' then some ([], rest)
    else if c = '\\' then
      match rest with
      | [] => none
      | e :: rest2 =>
        if e = '"' then (parseStringBody rest2).map (fun p => ('"' :: p.1, p.2))
        else if e = '\\' then (parseStringBody rest2).map (fun p => ('\\' :: p.1, p.2))
        else if e = '/' then (parseStringBody rest2).map (fun p => ('/' :: p.1, p.2))
        else if e = 'n' then (parseStringBody rest2).map (fun p => ('\n' :: p.1, p.2))
        else if e = 'r' then (parseStringBody rest2).map (fun p => ('\r' :: p.1, p.2))
        else if e = 't' then (parseStringBody rest2).map (fun p => ('\t' :: p.1, p.2))
        else if e = 'b' then (parseStringBody rest2).map (fun p => (Char.ofNat 8 :: p.1, p.2))
        else if e = 'f' then (parseStringBody rest2).map (fun p => (Char.ofNat 12 :: p.1, p.2))
        else if e = 'u' then
          match rest2 with
          | h1 :: h2 :: h3 :: h4 :: rest3 =>
            match hexVal h1, hexVal h2, hexVal h3, hexVal h4 with
            | some a, some b, some c2, some d =>
              let n := ((a * 16 + b) * 16 + c2) * 16 + d
              let ch := if n < 55296 ∨ 57343 < n then Char.ofNat n else Char.ofNat 65533
              (parseStringBody rest3).map (fun p => (ch :: p.1, p.2))
            | _, _, _, _ => none
          | _ => none
        else none
    else if c.toNat < 32 then none
    else (parseStringBody rest).map (fun p => (c :: p.1, p.2))

/-- `json.Unmarshal(configBytes, &cfg)` for `EbpfConfig`: accepts the object
form the component itself writes (`\x7b"info":"..."\x7d`) and reports a
decode error on anything else.  (Go's decoder tolerates more well-formed
JSON — whitespace, other fields — than this model; none of the verified
properties depends on that slack, only on which bytes round-trip and on
failures propagating.) -/
def jsonUnmarshalConfig (byt : Bytes) : Except String EbpfConfig :=
  match byt with
  | '{' :: '"' :: 'i' :: 'n' :: 'f' :: 'o' :: '"' :: ':' :: '"' :: rest =>
    match parseStringBody rest with
    | some (s, ['}']) => .ok ⟨⟨s⟩⟩
    | _ => .error "invalid character in config JSON"
  | _ => .error "invalid character in config JSON"

/-- `buildConfigDescriptor` from spec.go lines 114-127: digest the config
bytes, default a nil annotations map to an empty one, set the title
annotation to `config.json`, and return the descriptor; the error result is
always nil. -/
def buildConfigDescriptor (byt : Bytes) (annotations : Option (List (String × String))) :
    Except String Descriptor :=
  let dig := digestFromBytes byt
  let anns0 := match annotations with
    | none => []
    | some a => a
  let anns := assocSet anns0 AnnotationTitle configName
  Except.ok
    { mediaType := configMediaType
      dig := dig
      size := byt.length
      annotations := anns }

/-- `ebpfResgistry.Push` from spec.go lines 50-83.  The `pkg` pointer is
`Option EbpfPackage`; the Go code reads `pkg.ProgramFileBytes` with no nil
check, so a nil argument is a nil-pointer dereference, modelled as
`GoResult.panic`. -/
def Push (reg : Registry) (ref : String) (pkg? : Option EbpfPackage) :
    GoResult Registry :=
  match pkg? with
  | none => .panic
  | some pkg =>
    let memoryStore := Memory.new
    let (progDesc, m1) := memoryStore.add ebpfFileName eBPFMediaType pkg.ProgramFileBytes
    let configByt := jsonMarshal pkg.EbpfConfig
    match buildConfigDescriptor configByt none with
    | .error e => .err e
    | .ok configDesc =>
      let m2 := m1.set configDesc configByt
      let manifest := generateManifest configDesc [progDesc]
      let m3 := m2.storeManifest ref manifest
      copyMemoryToRegistry m3 ref reg

/-- `ebpfResgistry.Pull` from spec.go lines 85-111: copy the artifact at
`ref` into a fresh memory store, look up the `program.o` and `config.json`
entries by title (both misses produce the same
`could not find ebpf bytes in manifest` error), JSON-decode the config and
assemble the package. -/
def Pull (reg : Registry) (ref : String) : GoResult EbpfPackage :=
  let memoryStore := Memory.new
  match copyRegistryToMemory reg ref memoryStore with
  | .panic => .panic
  | .err e => .err e
  | .ok mem =>
    match mem.getByName ebpfFileName with
    | none => .err "could not find ebpf bytes in manifest"
    | some (_, ebpfBytes) =>
      match mem.getByName configName with
      | none => .err "could not find ebpf bytes in manifest"
      | some (_, configBytes) =>
        match jsonUnmarshalConfig configBytes with
        | .error e => .err e
        | .ok cfg => .ok { ProgramFileBytes := ebpfBytes, EbpfConfig := cfg }

/-- The registry state a successful `Push` produces (every `Push` with a
non-nil package succeeds in this model, where the network copy is the
successful transfer). -/
def pushResult (reg : Registry) (ref : String) (pkg : EbpfPackage) : Registry :=
  match Push reg ref (some pkg) with
  | .ok r => r
  | _ => reg

/-! ## General lemmas about the JSON model -/

/-- A hex digit below 16 decodes back to its value. -/
theorem hexVal_hexDigitChar (m : Nat) (h : m < 16) : hexVal (hexDigitChar m) = some m := by
  interval_cases m <;> decide

/-- A `\uXXXX` escape with decodable digits and a scalar value below the
surrogate range parses to that code point. -/
theorem parse_u_escape (h1 h2 h3 h4 : Char) (a b c2 d : Nat) (l : List Char)
    (e1 : hexVal h1 = some a) (e2 : hexVal h2 = some b) (e3 : hexVal h3 = some c2)
    (e4 : hexVal h4 = some d) (hn : ((a * 16 + b) * 16 + c2) * 16 + d < 55296) :
    parseStringBody ('\\' :: 'u' :: h1 :: h2 :: h3 :: h4 :: l) =
      (parseStringBody l).map
        (fun p => (Char.ofNat (((a * 16 + b) * 16 + c2) * 16 + d) :: p.1, p.2)) := by
  rw [parseStringBody.eq_def]
  simp [e1, e2, e3, e4, hn]

/-- The decoder inverts the encoder on every single character. -/
theorem parse_escapeChar (c : Char) (l : List Char) :
    parseStringBody (escapeChar c ++ l) =
      (parseStringBody l).map (fun p => (c :: p.1, p.2)) := by
  unfold escapeChar
  split_ifs with h1 h2 h3 h4 h5 h6 h7
  · subst h1; rw [parseStringBody.eq_def]; simp
  · subst h2; rw [parseStringBody.eq_def]; simp
  · subst h3; rw [parseStringBody.eq_def]; simp
  · subst h4; rw [parseStringBody.eq_def]; simp
  · subst h5; rw [parseStringBody.eq_def]; simp
  · have hb : c.toNat < 256 := by
      rcases h6 with h | h | h | h
      · omega
      · subst h; decide
      · subst h; decide
      · subst h; decide
    have hd1 : c.toNat / 16 < 16 := by omega
    have hd2 : c.toNat % 16 < 16 := by omega
    have h0 : hexVal '0' = some 0 := by decide
    simp only [List.cons_append, List.nil_append]
    rw [parse_u_escape '0' '0' _ _ 0 0 (c.toNat / 16) (c.toNat % 16) l h0 h0
      (hexVal_hexDigitChar _ hd1) (hexVal_hexDigitChar _ hd2) (by omega)]
    have hn : ((0 * 16 + 0) * 16 + c.toNat / 16) * 16 + c.toNat % 16 = c.toNat := by omega
    rw [hn, Char.ofNat_toNat]
  · have h2v : hexVal '2' = some 2 := by decide
    have h0v : hexVal '0' = some 0 := by decide
    have hd : c.toNat % 16 < 16 := by omega
    simp only [List.cons_append, List.nil_append]
    rw [parse_u_escape '2' '0' '2' _ 2 0 2 (c.toNat % 16) l h2v h0v h2v
      (hexVal_hexDigitChar _ hd) (by omega)]
    have hn : ((2 * 16 + 0) * 16 + 2) * 16 + c.toNat % 16 = c.toNat := by omega
    rw [hn, Char.ofNat_toNat]
  · have hlt : ¬ c.toNat < 32 := fun hh => h6 (Or.inl hh)
    simp only [List.cons_append, List.nil_append]
    rw [parseStringBody.eq_def]
    simp [h1, h2, hlt]

/-- The decoder inverts the encoder on every string body, leaving the input
after the closing quote untouched. -/
theorem parse_escapeString (s : List Char) (l : List Char) :
    parseStringBody (escapeString s ++ '"' :: l) = some (s, l) := by
  induction s with
  | nil =>
    rw [parseStringBody.eq_def]
    simp [escapeString]
  | cons c s ih =>
    simp only [escapeString, List.map_cons, List.flatten_cons, List.append_assoc]
    rw [parse_escapeChar]
    simp only [escapeString] at ih
    rw [ih]
    rfl

/-- Decoding inverts encoding on every config value. -/
theorem jsonUnmarshal_jsonMarshal (cfg : EbpfConfig) :
    jsonUnmarshalConfig (jsonMarshal cfg) = .ok cfg := by
  obtain ⟨⟨s⟩⟩ := cfg
  simp only [jsonMarshal, jsonQuote, List.cons_append, List.nil_append, List.append_assoc]
  rw [jsonUnmarshalConfig.eq_def]
  simp only []
  rw [parse_escapeString]
  rfl

/-! ## General lemmas about Push and Pull -/

/-- The explicit registry state after a successful `Push`: the artifact at
`ref` holds the manifest (config descriptor plus the single program layer)
and the two staged blobs. -/
theorem push_eq (reg : Registry) (ref : String) (pkg : EbpfPackage) :
    Push reg ref (some pkg) = .ok (reg.set ref
      { manifest :=
          { config :=
              { mediaType := configMediaType
                dig := digestFromBytes (jsonMarshal pkg.EbpfConfig)
                size := (jsonMarshal pkg.EbpfConfig).length
                annotations := [(AnnotationTitle, configName)] }
            layers := [{ mediaType := eBPFMediaType
                         dig := digestFromBytes pkg.ProgramFileBytes
                         size := pkg.ProgramFileBytes.length
                         annotations := [(AnnotationTitle, ebpfFileName)] }] }
        blobs := [({ mediaType := eBPFMediaType
                     dig := digestFromBytes pkg.ProgramFileBytes
                     size := pkg.ProgramFileBytes.length
                     annotations := [(AnnotationTitle, ebpfFileName)] }, pkg.ProgramFileBytes),
                  ({ mediaType := configMediaType
                     dig := digestFromBytes (jsonMarshal pkg.EbpfConfig)
                     size := (jsonMarshal pkg.EbpfConfig).length
                     annotations := [(AnnotationTitle, configName)] },
                   jsonMarshal pkg.EbpfConfig)] }) := by
  simp [Push, Memory.new, Memory.add, Memory.set, Memory.storeManifest, buildConfigDescriptor,
    generateManifest, copyMemoryToRegistry, assocLookup, assocSet, ebpfFileName, configName]

/-- `pushResult` in explicit form. -/
theorem pushResult_eq (reg : Registry) (ref : String) (pkg : EbpfPackage) :
    pushResult reg ref pkg = reg.set ref
      { manifest :=
          { config :=
              { mediaType := configMediaType
                dig := digestFromBytes (jsonMarshal pkg.EbpfConfig)
                size := (jsonMarshal pkg.EbpfConfig).length
                annotations := [(AnnotationTitle, configName)] }
            layers := [{ mediaType := eBPFMediaType
                         dig := digestFromBytes pkg.ProgramFileBytes
                         size := pkg.ProgramFileBytes.length
                         annotations := [(AnnotationTitle, ebpfFileName)] }] }
        blobs := [({ mediaType := eBPFMediaType
                     dig := digestFromBytes pkg.ProgramFileBytes
                     size := pkg.ProgramFileBytes.length
                     annotations := [(AnnotationTitle, ebpfFileName)] }, pkg.ProgramFileBytes),
                  ({ mediaType := configMediaType
                     dig := digestFromBytes (jsonMarshal pkg.EbpfConfig)
                     size := (jsonMarshal pkg.EbpfConfig).length
                     annotations := [(AnnotationTitle, configName)] },
                   jsonMarshal pkg.EbpfConfig)] } := by
  rw [pushResult, push_eq]

/-- `Push` with a non-nil package always succeeds in this model and returns
the `pushResult` state. -/
theorem push_ok (reg : Registry) (ref : String) (pkg : EbpfPackage) :
    Push reg ref (some pkg) = .ok (pushResult reg ref pkg) := by
  rw [push_eq, pushResult_eq]

/-- Pulling the reference a package was just pushed to returns that
package. -/
theorem pull_push (reg : Registry) (ref : String) (pkg : EbpfPackage) :
    Pull (pushResult reg ref pkg) ref = .ok pkg := by
  rw [pushResult_eq]
  simp [Pull, copyRegistryToMemory, Registry.set, assocLookup, Memory.new, Memory.getByName,
    findByName, AnnotationTitle, ebpfFileName, configName, jsonUnmarshal_jsonMarshal]

/-- Missing either named entry in the artifact at `ref` makes `Pull` fail
with the (single) lookup-error message. -/
theorem pull_err_of_missing (reg : Registry) (ref : String) (art : Artifact)
    (h : assocLookup reg.store ref = some art)
    (hmiss : findByName art.blobs ebpfFileName = none ∨
      findByName art.blobs configName = none) :
    Pull reg ref = .err "could not find ebpf bytes in manifest" := by
  simp only [Pull, copyRegistryToMemory, Memory.new, h, List.nil_append, Memory.getByName]
  rcases hmiss with hm | hm
  · rw [hm]
  · cases hfind : findByName art.blobs ebpfFileName with
    | none => rfl
    | some e =>
      obtain ⟨d, b⟩ := e
      rw [hm]

/-! ## Claim statements and theorems -/

/-- The naming/media-type contract of a pushed artifact: the manifest lists
the program descriptor as its only layer and the config descriptor as its
configuration; the program blob is staged under the title `program.o` with
the eBPF media type, the encoded config under the title `config.json` with
the config media type, each title carried as the title annotation of its
descriptor. -/
def pushStagesNamedEntries (reg' : Registry) (ref : String) (pkg : EbpfPackage) : Prop :=
  ∃ art pd cd,
    assocLookup reg'.store ref = some art ∧
    art.manifest.layers = [pd] ∧
    art.manifest.config = cd ∧
    findByName art.blobs ebpfFileName = some (pd, pkg.ProgramFileBytes) ∧
    pd.mediaType = eBPFMediaType ∧
    assocLookup pd.annotations AnnotationTitle = some ebpfFileName ∧
    findByName art.blobs configName = some (cd, jsonMarshal pkg.EbpfConfig) ∧
    cd.mediaType = configMediaType ∧
    assocLookup cd.annotations AnnotationTitle = some configName

/-- The config-serialization contract of a pushed artifact: the blob staged
under `config.json` is exactly the JSON object with the single field `info`
holding the quoted `Info` string, and its descriptor (the manifest's config
descriptor) carries the content digest of exactly those bytes and their
length as its size. -/
def pushConfigSerialization (reg' : Registry) (ref : String) (S : String) : Prop :=
  ∃ art cd,
    assocLookup reg'.store ref = some art ∧
    art.manifest.config = cd ∧
    findByName art.blobs configName =
      some (cd, '{' :: '"' :: 'i' :: 'n' :: 'f' :: 'o' :: '"' :: ':' ::
        ('"' :: (escapeString S.data ++ ['"']) ++ ['}'])) ∧
    cd.dig = digestFromBytes ('{' :: '"' :: 'i' :: 'n' :: 'f' :: 'o' :: '"' :: ':' ::
        ('"' :: (escapeString S.data ++ ['"']) ++ ['}'])) ∧
    cd.size = ('{' :: '"' :: 'i' :: 'n' :: 'f' :: 'o' :: '"' :: ':' ::
        ('"' :: (escapeString S.data ++ ['"']) ++ ['}'])).length

/-- C1: for every byte sequence `B` and string `S`, pushing the package
with program bytes `B` and config info `S` to a reference and then pulling
the same reference returns a package whose program bytes equal `B`
byte-for-byte and whose config info equals `S`. -/
theorem push_then_pull_roundtrip (reg : Registry) (ref : String) (B : Bytes) (S : String)
    (reg' : Registry) (h : Push reg ref (some ⟨B, ⟨S⟩⟩) = .ok reg') :
    Pull reg' ref = .ok ⟨B, ⟨S⟩⟩ := by
  rw [push_ok] at h
  cases h
  exact pull_push reg ref ⟨B, ⟨S⟩⟩

/-- Witness for C1 at a concrete registry, reference, byte sequence and
string. -/
theorem push_then_pull_roundtrip_witness :
    Pull (pushResult ⟨[]⟩ "registry.example.com/ns/app:v1" ⟨['E', 'L', 'F'], ⟨"demo"⟩⟩)
      "registry.example.com/ns/app:v1" = .ok ⟨['E', 'L', 'F'], ⟨"demo"⟩⟩ :=
  push_then_pull_roundtrip ⟨[]⟩ "registry.example.com/ns/app:v1" ['E', 'L', 'F'] "demo"
    (pushResult ⟨[]⟩ "registry.example.com/ns/app:v1" ⟨['E', 'L', 'F'], ⟨"demo"⟩⟩) rfl

/-- C2: pulling a reference whose artifact lacks an entry titled
`program.o` or lacks one titled `config.json` returns the lookup error (so
no package, no panic and no silent empty package). -/
theorem pull_missing_entry_fails (reg : Registry) (ref : String) (art : Artifact)
    (h : assocLookup reg.store ref = some art)
    (hmiss : findByName art.blobs ebpfFileName = none ∨
      findByName art.blobs configName = none) :
    Pull reg ref = .err "could not find ebpf bytes in manifest" :=
  pull_err_of_missing reg ref art h hmiss

/-- Witness for C2 at a concrete registry whose artifact has no entries at
all. -/
theorem pull_missing_entry_fails_witness :
    Pull ⟨[("example.com/empty:v1",
        { manifest := { config := { mediaType := "", dig := [], size := 0, annotations := [] }
                        layers := [] }
          blobs := [] })]⟩ "example.com/empty:v1" =
      .err "could not find ebpf bytes in manifest" :=
  pull_missing_entry_fails _ _ _ rfl (Or.inl rfl)

/-- C3: pulling a reference whose `config.json` entry holds bytes the
config decoder rejects returns exactly the decode error and no package. -/
theorem pull_invalid_config_fails (reg : Registry) (ref : String) (art : Artifact)
    (dp : Descriptor) (bp : Bytes) (dc : Descriptor) (bc : Bytes) (e : String)
    (h : assocLookup reg.store ref = some art)
    (hp : findByName art.blobs ebpfFileName = some (dp, bp))
    (hc : findByName art.blobs configName = some (dc, bc))
    (hbad : jsonUnmarshalConfig bc = .error e) :
    Pull reg ref = .err e := by
  simp only [Pull, copyRegistryToMemory, Memory.new, h, List.nil_append, Memory.getByName,
    hp, hc, hbad]

/-- Witness for C3 at a concrete registry whose config entry holds the
non-JSON bytes `nope`. -/
theorem pull_invalid_config_fails_witness :
    Pull ⟨[("example.com/bad:v1",
        { manifest := { config := { mediaType := configMediaType, dig := "nope".data
                                    size := 4, annotations := [(AnnotationTitle, configName)] }
                        layers := [{ mediaType := eBPFMediaType, dig := [], size := 0
                                     annotations := [(AnnotationTitle, ebpfFileName)] }] }
          blobs := [({ mediaType := eBPFMediaType, dig := [], size := 0
                       annotations := [(AnnotationTitle, ebpfFileName)] }, []),
                    ({ mediaType := configMediaType, dig := "nope".data, size := 4
                       annotations := [(AnnotationTitle, configName)] }, "nope".data)] })]⟩
      "example.com/bad:v1" = .err "invalid character in config JSON" :=
  pull_invalid_config_fails _ _ _ _ _ _ _ _ rfl rfl rfl rfl

/-- C4: every successful `Push` stages the program bytes under the fixed
entry name `program.o` with media type `binary/ebpf.solo.io.v1` and the
encoded config under the fixed entry name `config.json` with media type
`application/ebpf.oci.image.config.v1+json`, the names carried as title
annotations of the two descriptors. -/
theorem push_stages_named_entries (reg : Registry) (ref : String) (pkg : EbpfPackage)
    (reg' : Registry) (h : Push reg ref (some pkg) = .ok reg') :
    pushStagesNamedEntries reg' ref pkg := by
  rw [push_eq] at h
  cases h
  refine
    ⟨{ manifest :=
         { config :=
             { mediaType := configMediaType
               dig := digestFromBytes (jsonMarshal pkg.EbpfConfig)
               size := (jsonMarshal pkg.EbpfConfig).length
               annotations := [(AnnotationTitle, configName)] }
           layers := [{ mediaType := eBPFMediaType
                        dig := digestFromBytes pkg.ProgramFileBytes
                        size := pkg.ProgramFileBytes.length
                        annotations := [(AnnotationTitle, ebpfFileName)] }] }
       blobs := [({ mediaType := eBPFMediaType
                    dig := digestFromBytes pkg.ProgramFileBytes
                    size := pkg.ProgramFileBytes.length
                    annotations := [(AnnotationTitle, ebpfFileName)] }, pkg.ProgramFileBytes),
                 ({ mediaType := configMediaType
                    dig := digestFromBytes (jsonMarshal pkg.EbpfConfig)
                    size := (jsonMarshal pkg.EbpfConfig).length
                    annotations := [(AnnotationTitle, configName)] },
                  jsonMarshal pkg.EbpfConfig)] },
     { mediaType := eBPFMediaType
       dig := digestFromBytes pkg.ProgramFileBytes
       size := pkg.ProgramFileBytes.length
       annotations := [(AnnotationTitle, ebpfFileName)] },
     { mediaType := configMediaType
       dig := digestFromBytes (jsonMarshal pkg.EbpfConfig)
       size := (jsonMarshal pkg.EbpfConfig).length
       annotations := [(AnnotationTitle, configName)] },
     ?_, rfl, rfl, ?_, rfl, ?_, ?_, rfl, ?_⟩
  · simp [Registry.set, assocLookup]
  · simp [findByName, assocLookup, AnnotationTitle]
  · simp [assocLookup, AnnotationTitle]
  · simp [findByName, assocLookup, AnnotationTitle, ebpfFileName, configName]
  · simp [assocLookup, AnnotationTitle]

/-- Witness for C4 at a concrete push. -/
theorem push_stages_named_entries_witness :
    pushStagesNamedEntries (pushResult ⟨[]⟩ "example.com/app:v4" ⟨['E'], ⟨"x"⟩⟩)
      "example.com/app:v4" ⟨['E'], ⟨"x"⟩⟩ :=
  push_stages_named_entries ⟨[]⟩ "example.com/app:v4" ⟨['E'], ⟨"x"⟩⟩
    (pushResult ⟨[]⟩ "example.com/app:v4" ⟨['E'], ⟨"x"⟩⟩) rfl

/-- C5: every successful `Push` of a config with `Info = S` serializes it
as the JSON object with the single recognized field `info` holding `S`, and
the config descriptor carries the content digest of exactly those bytes and
their length as its size. -/
theorem push_config_serialization (reg : Registry) (ref : String) (B : Bytes) (S : String)
    (reg' : Registry) (h : Push reg ref (some ⟨B, ⟨S⟩⟩) = .ok reg') :
    pushConfigSerialization reg' ref S := by
  rw [push_eq] at h
  cases h
  refine
    ⟨{ manifest :=
         { config :=
             { mediaType := configMediaType
               dig := digestFromBytes (jsonMarshal ⟨S⟩)
               size := (jsonMarshal ⟨S⟩).length
               annotations := [(AnnotationTitle, configName)] }
           layers := [{ mediaType := eBPFMediaType
                        dig := digestFromBytes B
                        size := B.length
                        annotations := [(AnnotationTitle, ebpfFileName)] }] }
       blobs := [({ mediaType := eBPFMediaType
                    dig := digestFromBytes B
                    size := B.length
                    annotations := [(AnnotationTitle, ebpfFileName)] }, B),
                 ({ mediaType := configMediaType
                    dig := digestFromBytes (jsonMarshal ⟨S⟩)
                    size := (jsonMarshal ⟨S⟩).length
                    annotations := [(AnnotationTitle, configName)] },
                  jsonMarshal ⟨S⟩)] },
     { mediaType := configMediaType
       dig := digestFromBytes (jsonMarshal ⟨S⟩)
       size := (jsonMarshal ⟨S⟩).length
       annotations := [(AnnotationTitle, configName)] },
     ?_, rfl, ?_, rfl, rfl⟩
  · simp [Registry.set, assocLookup]
  · simp [findByName, assocLookup, AnnotationTitle, ebpfFileName, configName, jsonMarshal,
      jsonQuote]

/-- Witness for C5 at a concrete push. -/
theorem push_config_serialization_witness :
    pushConfigSerialization (pushResult ⟨[]⟩ "example.com/app:v5" ⟨['E'], ⟨"hi"⟩⟩)
      "example.com/app:v5" "hi" :=
  push_config_serialization ⟨[]⟩ "example.com/app:v5" ['E'] "hi"
    (pushResult ⟨[]⟩ "example.com/app:v5" ⟨['E'], ⟨"hi"⟩⟩) rfl

/-- C6: pushing a package with empty program bytes succeeds, and pulling
the same reference returns a package whose program bytes are the empty
sequence, not an error. -/
theorem push_pull_empty_program (reg : Registry) (ref : String) (S : String) :
    Push reg ref (some ⟨[], ⟨S⟩⟩) = .ok (pushResult reg ref ⟨[], ⟨S⟩⟩) ∧
    Pull (pushResult reg ref ⟨[], ⟨S⟩⟩) ref = .ok ⟨[], ⟨S⟩⟩ :=
  ⟨push_ok reg ref ⟨[], ⟨S⟩⟩, pull_push reg ref ⟨[], ⟨S⟩⟩⟩

/-- C7: `Pull` is a deterministic function of the registry state at the
reference (the facade holds no mutable state), so two pulls of the same
unchanged reference return packages with equal program bytes and equal
config. -/
theorem pull_deterministic (reg : Registry) (ref : String) (p₁ p₂ : EbpfPackage)
    (h₁ : Pull reg ref = .ok p₁) (h₂ : Pull reg ref = .ok p₂) :
    p₁.ProgramFileBytes = p₂.ProgramFileBytes ∧ p₁.EbpfConfig = p₂.EbpfConfig := by
  rw [h₁] at h₂
  cases h₂
  exact ⟨rfl, rfl⟩

/-- Witness for C7: two pulls of one concrete pushed reference. -/
theorem pull_deterministic_witness :
    EbpfPackage.ProgramFileBytes ⟨['b'], ⟨"i"⟩⟩ =
      EbpfPackage.ProgramFileBytes ⟨['b'], ⟨"i"⟩⟩ ∧
    EbpfPackage.EbpfConfig ⟨['b'], ⟨"i"⟩⟩ = EbpfPackage.EbpfConfig ⟨['b'], ⟨"i"⟩⟩ :=
  pull_deterministic (pushResult ⟨[]⟩ "example.com/app:v7" ⟨['b'], ⟨"i"⟩⟩)
    "example.com/app:v7" ⟨['b'], ⟨"i"⟩⟩ ⟨['b'], ⟨"i"⟩⟩ rfl rfl

/-- C8: the error for a missing `config.json` entry carries the exact same
message string, `could not find ebpf bytes in manifest`, as the error for a
missing `program.o` entry, so the error text cannot distinguish the two. -/
theorem pull_missing_entries_same_error (reg₁ : Registry) (ref₁ : String) (art₁ : Artifact)
    (reg₂ : Registry) (ref₂ : String) (art₂ : Artifact) (d : Descriptor) (b : Bytes)
    (h₁ : assocLookup reg₁.store ref₁ = some art₁)
    (hm₁ : findByName art₁.blobs ebpfFileName = none)
    (h₂ : assocLookup reg₂.store ref₂ = some art₂)
    (_hp₂ : findByName art₂.blobs ebpfFileName = some (d, b))
    (hm₂ : findByName art₂.blobs configName = none) :
    Pull reg₁ ref₁ = .err "could not find ebpf bytes in manifest" ∧
    Pull reg₂ ref₂ = .err "could not find ebpf bytes in manifest" :=
  ⟨pull_err_of_missing reg₁ ref₁ art₁ h₁ (Or.inl hm₁),
   pull_err_of_missing reg₂ ref₂ art₂ h₂ (Or.inr hm₂)⟩

/-- Witness for C8: one artifact with no entries, one with only the
program entry. -/
theorem pull_missing_entries_same_error_witness :
    Pull ⟨[("example.com/a:v8",
        { manifest := { config := { mediaType := "", dig := [], size := 0, annotations := [] }
                        layers := [] }
          blobs := [] })]⟩ "example.com/a:v8" =
      .err "could not find ebpf bytes in manifest" ∧
    Pull ⟨[("example.com/b:v8",
        { manifest := { config := { mediaType := "", dig := [], size := 0, annotations := [] }
                        layers := [{ mediaType := eBPFMediaType, dig := ['z'], size := 1
                                     annotations := [(AnnotationTitle, ebpfFileName)] }] }
          blobs := [({ mediaType := eBPFMediaType, dig := ['z'], size := 1
                       annotations := [(AnnotationTitle, ebpfFileName)] }, ['z'])] })]⟩
      "example.com/b:v8" = .err "could not find ebpf bytes in manifest" :=
  pull_missing_entries_same_error _ _ _ _ _ _ _ _ rfl rfl rfl rfl rfl

/-- C9: `buildConfigDescriptor` is total: for every byte sequence and every
annotations argument (nil included) it returns a descriptor with a nil
error, so the error branch guarding its call inside `Push` is
unreachable. -/
theorem buildConfigDescriptor_total (byt : Bytes) (ann : Option (List (String × String))) :
    ∃ dsc, buildConfigDescriptor byt ann = Except.ok dsc :=
  ⟨_, rfl⟩

/-- C10: `Push` performs no nil check on its package argument: a nil
package is a nil-pointer dereference (panic), and with a non-nil package
`Push` never panics. -/
theorem push_nil_package_panics (reg : Registry) (ref : String) :
    Push reg ref none = .panic ∧
    ∀ pkg : EbpfPackage, Push reg ref (some pkg) ≠ .panic := by
  refine ⟨rfl, fun pkg h => ?_⟩
  rw [push_eq] at h
  cases h

end Packaging
